import Mathlib

/-
Verification development for the stateful multi-session execution core of
playwrightess-mcp (src/multi-executor.ts, src/executor.ts,
src/multi-session-manager.ts).

The embedding models:
  * the Babel-based source rewriter `rewriteCodeToTrackVariables` over a
    fragment AST covering the constructs the rewriter inspects
    (variable declarators with identifier / destructuring patterns,
    assignment expressions with identifier / member left-hand sides,
    function declarations, return statements, console.log calls);
  * the per-session vm-context semantics: a session's durable namespace is
    the contextified global object, fragment locals live in the implicit
    async wrapper's scope, sloppy-mode assignment to an undeclared name
    writes the global slot, and `globalThis.<n> = <n>` writes the global
    slot directly;
  * `MultiExecutor` (contexts map, two console buffers per session, lazy
    playwright binding, execute with drain-and-clear) and
    `MultiSessionManager` (per-session browser/context/page resource set,
    lazy launch, ordered error-absorbing teardown).

Host objects (playwright handles, timers, require, ...) are opaque
`Value.handle` values; only the properties the core itself inspects
(connectedness of a browser, closedness of a page, truthiness of a
context-global) are modelled.
-/

namespace Playwrightess

/-- Association-list lookup, modelling `Map.get` / property lookup on the
contextified global object. -/
def getA {α : Type} : List (String × α) → String → Option α
  | [], _ => none
  | (k, v) :: rest, key => if k = key then some v else getA rest key

/-- Association-list update-or-insert, modelling `Map.set` / property
assignment: an existing key is overwritten in place, a new key is appended. -/
def setA {α : Type} : List (String × α) → String → α → List (String × α)
  | [], key, v => [(key, v)]
  | (k, w) :: rest, key, v =>
      if k = key then (k, v) :: rest else (k, w) :: setA rest key v

/-- Association-list deletion, modelling `Map.delete`. -/
def delA {α : Type} : List (String × α) → String → List (String × α)
  | [], _ => []
  | (k, w) :: rest, key =>
      if k = key then rest else (k, w) :: delA rest key

theorem getA_setA_same {α : Type} (l : List (String × α)) (k : String) (v : α) :
    getA (setA l k v) k = some v := by
  induction l with
  | nil => simp [getA, setA]
  | cons hd tl ih =>
      obtain ⟨k', v'⟩ := hd
      by_cases h : k' = k
      · simp [getA, setA, h]
      · simp [getA, setA, h, ih]

theorem getA_setA_ne {α : Type} (l : List (String × α)) (k k' : String) (v : α)
    (h : k ≠ k') : getA (setA l k v) k' = getA l k' := by
  induction l with
  | nil => simp [getA, setA, h]
  | cons hd tl ih =>
      obtain ⟨k'', v''⟩ := hd
      by_cases h2 : k'' = k
      · subst h2
        simp [getA, setA, h]
      · simp only [setA, if_neg h2, getA]
        by_cases h3 : k'' = k'
        · simp [h3]
        · simp [h3, ih]

theorem isSome_getA_setA {α : Type} (l : List (String × α)) (k : String) (v : α) :
    (getA (setA l k v) k).isSome := by
  rw [getA_setA_same]
  rfl

/-- Runtime values of the embedded fragment language.  Playwright objects,
the session manager, host functions and plain objects are opaque handles
distinguished by a kind tag and a numeric identity; `globalRef` is the
contextified global object that `globalThis` (and the `global` / `self`
aliases installed by `initializeContext`) denote. -/
inductive Value where
  | undef
  | nullV
  | num (n : Int)
  | str (s : String)
  | boolV (b : Bool)
  | handle (kind : String) (id : Nat)
  | globalRef
  deriving Repr, DecidableEq

/-- JavaScript truthiness, as used by the `!browser || !contextVar || !page`
re-binding check in `ensurePlaywrightInitialized`. -/
def Value.truthy : Value → Bool
  | .undef => false
  | .nullV => false
  | .num n => n ≠ 0
  | .str s => s ≠ ""
  | .boolV b => b
  | .handle _ _ => true
  | .globalRef => true

/-- String coercion of a value, as performed by the session console's
`String(arg)` before a log line is buffered.  Opaque handles stringify to
an object tag. -/
def Value.text : Value → String
  | .undef => "undefined"
  | .nullV => "null"
  | .num n => toString n
  | .str s => s
  | .boolV b => if b then "true" else "false"
  | .handle kind _ => "[object " ++ kind ++ "]"
  | .globalRef => "[object global]"

/-- Binding patterns of a variable declarator: a bare identifier, an object
destructuring pattern, or an array destructuring pattern.  Only the bare
identifier form is matched by the rewriter's `t.isIdentifier(id)` test. -/
inductive Pat where
  | id (name : String)
  | objPat (names : List String)
  | arrPat (names : List String)

/-- Expressions of the embedded fragment language: literals, identifier
references, member reads, assignments to a bare identifier, and assignments
through a member expression (`obj.prop = e`, which covers the injected
`globalThis.<n> = <n>` statements). -/
inductive Expr where
  | lit (v : Value)
  | var (name : String)
  | member (obj : Expr) (prop : String)
  | assignId (name : String) (rhs : Expr)
  | assignMember (obj : Expr) (prop : String) (rhs : Expr)

mutual
/-- Statements of the embedded fragment language. -/
inductive Stmt where
  | decl (pat : Pat) (init : Expr)
  | exprStmt (e : Expr)
  | funcDecl (name : String) (body : Block)
  | ret (e : Option Expr)
  | consoleLog (e : Expr)

/-- A block of statements (a program body or a function body). -/
inductive Block where
  | nil
  | cons (s : Stmt) (rest : Block)
end

/-- Block concatenation. -/
def Block.append : Block → Block → Block
  | .nil, b => b
  | .cons s r, b => .cons s (Block.append r b)

/-- Conversion of a statement list into a block. -/
def listToBlock : List Stmt → Block
  | [] => .nil
  | s :: rest => .cons s (listToBlock rest)

/-- The fixed tracked-name set `TRACKED_VARIABLES` from the source. -/
def trackedVariables : List String := ["page", "browser", "context", "sessionManager"]

/-- The statement the rewriter synthesizes for a matched tracked name `x`:
`globalThis.x = x;`. -/
def mirrorStmt (x : String) : Stmt :=
  .exprStmt (.assignMember (.var "globalThis") x (.var x))

/-- Names of tracked bare-identifier assignment targets occurring in an
expression, in Babel pre-order traversal order.  This is what the
`AssignmentExpression` visitor matches with
`t.isIdentifier(left) && TRACKED_VARIABLES.has(left.name)`; member-expression
left-hand sides contribute nothing. -/
def exprTrackedAssigns : Expr → List String
  | .lit _ => []
  | .var _ => []
  | .member obj _ => exprTrackedAssigns obj
  | .assignId x rhs =>
      (if trackedVariables.contains x then [x] else []) ++ exprTrackedAssigns rhs
  | .assignMember obj _ rhs => exprTrackedAssigns obj ++ exprTrackedAssigns rhs

/-- Names bound by a declarator pattern that the `VariableDeclarator` visitor
matches: only a bare identifier in the tracked set; destructuring patterns
fail the `t.isIdentifier(id)` test and contribute nothing. -/
def patTrackedDecl : Pat → List String
  | .id x => if trackedVariables.contains x then [x] else []
  | .objPat _ => []
  | .arrPat _ => []

mutual
/-- Source-side embedding of the rewrite pass of `rewriteCodeToTrackVariables`
on one statement.  `inFunction` records whether the statement sits inside a
function body (so that `path.getFunctionParent()` is non-null for its
declarators).  Returns the replacement statements for this statement
(the statement itself followed by the mirror statements spliced after it)
together with the declarator matches hoisted to the enclosing function.

Successive `path.insertAfter` calls that target the same node each splice
immediately after that node, so mirrors for the matches of one target appear
in reverse pre-order; this is reflected by the `reverse` below. -/
def rewriteStmt (inFunction : Bool) : Stmt → (Block × List String)
  | .decl pat init =>
      let declNames := patTrackedDecl pat
      let exprNames := exprTrackedAssigns init
      if inFunction then
        (Block.cons (.decl pat init) (listToBlock (List.map mirrorStmt exprNames.reverse)),
          declNames)
      else
        (Block.cons (.decl pat init)
            (listToBlock (List.map mirrorStmt (declNames ++ exprNames).reverse)), [])
  | .exprStmt e =>
      (Block.cons (.exprStmt e)
          (listToBlock (List.map mirrorStmt (exprTrackedAssigns e).reverse)), [])
  | .funcDecl f body =>
      let res := rewriteBlock true body
      (Block.cons (.funcDecl f res.1)
          (listToBlock (List.map mirrorStmt res.2.reverse)), [])
  | .ret none => (Block.cons (.ret none) .nil, [])
  | .ret (some e) =>
      (Block.cons (.ret (some e))
          (listToBlock (List.map mirrorStmt (exprTrackedAssigns e).reverse)), [])
  | .consoleLog e =>
      (Block.cons (.consoleLog e)
          (listToBlock (List.map mirrorStmt (exprTrackedAssigns e).reverse)), [])

/-- Source-side rewrite of a whole block; the second component collects the
declarator matches of the block's direct statements that must be mirrored
after the enclosing function (empty at top level, where declarator mirrors
are placed after their own declaration statement). -/
def rewriteBlock (inFunction : Bool) : Block → (Block × List String)
  | .nil => (.nil, [])
  | .cons s rest =>
      let hd := rewriteStmt inFunction s
      let tl := rewriteBlock inFunction rest
      (Block.append hd.1 tl.1, hd.2 ++ tl.2)
end

/-- Rewrite of a parsed program: the traversal starts at `Program`, where
`path.getFunctionParent()` is null. -/
def rewriteProgram (prog : Block) : Block :=
  (rewriteBlock false prog).1

/-- Source fragments as handed to `rewriteCodeToTrackVariables`: either a
parseable fragment (abstracted by its syntax tree) or malformed text on
which `@babel/parser` throws. -/
inductive Source where
  | prog (b : Block)
  | malformed (raw : String)

/-- The parse step (`parse(code, {...})`): succeeds exactly on well-formed
fragments. -/
def parseFragment : Source → Option Block
  | .prog b => some b
  | .malformed _ => none

/-- Embedding of `rewriteCodeToTrackVariables`: parse, traverse/insert,
regenerate; on any parse/traversal failure the catch block logs a diagnostic
on the host console and returns the original code unchanged. -/
def rewriteCodeToTrackVariables (code : Source) : Source :=
  match parseFragment code with
  | some ast => .prog (rewriteProgram ast)
  | none => code

/-- Declarator matches of one statement (the bare tracked name a
`VariableDeclarator` visitor match reports), used to describe which mirrors
the spec hoists after an enclosing function body. -/
def stmtDeclM : Stmt → List String
  | .decl pat _ => patTrackedDecl pat
  | _ => []

/-- Declarator matches of a block's direct statements, in order of
occurrence. -/
def declMirrorsAfterFn : Block → List String
  | .nil => []
  | .cons s rest => stmtDeclM s ++ declMirrorsAfterFn rest

mutual
/-- Spec-side injection contract, written from the spec's words: "for each
match, synthesize a statement that copies the identifier's current value into
the durable namespace slot of the same name, and insert it immediately after
the enclosing statement (for a declaration, after the nearest enclosing
function body or, if none, the nearest enclosing top-level statement; for an
assignment, after the nearest enclosing statement)" — and make no other
change.  `inFn` is true inside a function body, where a declaration's mirror
is hoisted after the function rather than placed after the declaration.
Multiple mirrors landing after the same statement appear in reverse match
order (the spec fixes only the position, not an order among them). -/
def specOne (inFn : Bool) : Stmt → Block
  | .decl pat init =>
      if inFn then
        Block.cons (.decl pat init)
          (listToBlock (List.map mirrorStmt (exprTrackedAssigns init).reverse))
      else
        Block.cons (.decl pat init)
          (listToBlock (List.map mirrorStmt
            (patTrackedDecl pat ++ exprTrackedAssigns init).reverse))
  | .exprStmt e =>
      Block.cons (.exprStmt e)
        (listToBlock (List.map mirrorStmt (exprTrackedAssigns e).reverse))
  | .funcDecl f body =>
      Block.cons (.funcDecl f (specTrack true body))
        (listToBlock (List.map mirrorStmt (declMirrorsAfterFn body).reverse))
  | .ret none => Block.cons (.ret none) .nil
  | .ret (some e) =>
      Block.cons (.ret (some e))
        (listToBlock (List.map mirrorStmt (exprTrackedAssigns e).reverse))
  | .consoleLog e =>
      Block.cons (.consoleLog e)
        (listToBlock (List.map mirrorStmt (exprTrackedAssigns e).reverse))

/-- Spec-side injection contract over a block. -/
def specTrack (inFn : Bool) : Block → Block
  | .nil => .nil
  | .cons s rest => Block.append (specOne inFn s) (specTrack inFn rest)
end

mutual
/-- All rewriter matches occurring anywhere in a statement (declarator
matches and bare tracked assignment targets, including inside function
bodies). -/
def stmtMatches : Stmt → List String
  | .decl pat init => patTrackedDecl pat ++ exprTrackedAssigns init
  | .exprStmt e => exprTrackedAssigns e
  | .funcDecl _ body => blockMatches body
  | .ret none => []
  | .ret (some e) => exprTrackedAssigns e
  | .consoleLog e => exprTrackedAssigns e

/-- All rewriter matches occurring anywhere in a block. -/
def blockMatches : Block → List String
  | .nil => []
  | .cons s rest => stmtMatches s ++ blockMatches rest
end

/-! ## Fragment evaluation semantics

A fragment is evaluated as `(async () => { <rewritten code> })()` inside the
session's vm context.  The wrapper provides a fresh local scope for the
fragment's own declarations; the contextified global object is the session's
durable namespace.  Sloppy-mode assignment to a name with no local binding
writes the global slot; reading an unbound name throws a ReferenceError.
Session console calls append a formatted line to the per-session buffer.
-/

/-- Interpreter state for one fragment run: the wrapper's local scope, the
session's global (durable) namespace, and the session-console lines emitted
so far. -/
structure RState where
  locals : List (String × Value)
  globals : List (String × Value)
  logs : List String
  deriving Repr, DecidableEq

/-- Binding a declarator pattern.  A bare identifier binds locally to the
initializer's value; destructuring patterns bind each contained name locally
(their projected component values are abstracted as `undef`; only the fact
that the binding is local, never global, matters here). -/
def bindPat (pat : Pat) (v : Value) (locals : List (String × Value)) :
    List (String × Value) :=
  match pat with
  | .id x => setA locals x v
  | .objPat ns => ns.foldl (fun l n => setA l n .undef) locals
  | .arrPat ns => ns.foldl (fun l n => setA l n .undef) locals

/-- Expression evaluation: value or thrown error, plus the updated state.
State updates made before a throw are kept, as in the vm. -/
def evalExpr : Expr → RState → (Except String Value) × RState
  | .lit v, st => (.ok v, st)
  | .var x, st =>
      match getA st.locals x with
      | some v => (.ok v, st)
      | none =>
          if x = "globalThis" then (.ok .globalRef, st)
          else
            match getA st.globals x with
            | some v => (.ok v, st)
            | none => (.error ("ReferenceError: " ++ x ++ " is not defined"), st)
  | .member obj p, st =>
      match evalExpr obj st with
      | (.error e, st1) => (.error e, st1)
      | (.ok o, st1) =>
          match o with
          | .globalRef => (.ok ((getA st1.globals p).getD .undef), st1)
          | _ => (.ok .undef, st1)
  | .assignId x rhs, st =>
      match evalExpr rhs st with
      | (.error e, st1) => (.error e, st1)
      | (.ok v, st1) =>
          if (getA st1.locals x).isSome then
            (.ok v, { st1 with locals := setA st1.locals x v })
          else
            (.ok v, { st1 with globals := setA st1.globals x v })
  | .assignMember obj p rhs, st =>
      match evalExpr obj st with
      | (.error e, st1) => (.error e, st1)
      | (.ok o, st1) =>
          match evalExpr rhs st1 with
          | (.error e, st2) => (.error e, st2)
          | (.ok v, st2) =>
              match o with
              | .globalRef => (.ok v, { st2 with globals := setA st2.globals p v })
              | _ => (.ok v, st2)

/-- Statement-list execution inside the async wrapper.  `ok none` means the
block ran off its end (the wrapper resolves to `undefined`); `ok (some v)`
means an explicit `return` produced `v`; `error e` is a thrown error.
Function declarations bind an opaque function value; their bodies are not
entered here (the fragment language has no calls). -/
def execBlock : Block → RState → (Except String (Option Value)) × RState
  | .nil, st => (.ok none, st)
  | .cons s rest, st =>
      match s with
      | .decl pat init =>
          match evalExpr init st with
          | (.error e, st1) => (.error e, st1)
          | (.ok v, st1) => execBlock rest { st1 with locals := bindPat pat v st1.locals }
      | .exprStmt e =>
          match evalExpr e st with
          | (.error e', st1) => (.error e', st1)
          | (.ok _, st1) => execBlock rest st1
      | .funcDecl f _ =>
          execBlock rest { st with locals := setA st.locals f (.handle "function" 0) }
      | .ret none => (.ok (some .undef), st)
      | .ret (some e) =>
          match evalExpr e st with
          | (.error e', st1) => (.error e', st1)
          | (.ok v, st1) => (.ok (some v), st1)
      | .consoleLog e =>
          match evalExpr e st with
          | (.error e', st1) => (.error e', st1)
          | (.ok v, st1) =>
              execBlock rest { st1 with logs := st1.logs ++ ["[LOG] " ++ v.text] }

/-- One whole fragment run through the vm: `vm.runInContext` throws a
SyntaxError on malformed source without touching the context; a parsed
fragment executes with a fresh local scope against the session's globals.
Returns the completion outcome, the updated globals, and the session-console
lines emitted during the run. -/
def vmRunFragment (code : Source) (ctx : List (String × Value)) :
    (Except String (Option Value)) × List (String × Value) × List String :=
  match code with
  | .malformed raw => (.error ("SyntaxError: " ++ raw), ctx, [])
  | .prog b =>
      let r := execBlock b { locals := [], globals := ctx, logs := [] }
      (r.1, r.2.globals, r.2.logs)

/-! ## MultiSessionManager (resource pool)

Embedding of src/multi-session-manager.ts.  Playwright handles are records
carrying only the state the manager inspects: a browser's connectedness, a
page's closedness, and — for the teardown theorems — a fault-injection flag
saying whether the underlying `close()` call throws.  A ghost event trace
records close attempts and absorbed close errors, mirroring the
`console.error` logging in the catch blocks.
-/

/-- A launched browser handle. -/
structure BrowserHandle where
  id : Nat
  connected : Bool
  failOnClose : Bool
  deriving Repr, DecidableEq

/-- A browsing-profile context handle (from `launchPersistentContext`). -/
structure ContextHandle where
  id : Nat
  failOnClose : Bool
  deriving Repr, DecidableEq

/-- A page handle. -/
structure PageHandle where
  id : Nat
  closed : Bool
  failOnClose : Bool
  deriving Repr, DecidableEq

/-- One session's resource set (the `BrowserSession` record of the source). -/
structure BrowserSession where
  browser : Option BrowserHandle
  context : Option ContextHandle
  page : Option PageHandle
  userDataDir : String
  storageStatePath : String
  deriving Repr, DecidableEq

/-- Which resource a teardown step targets. -/
inductive CloseTarget where
  | pageT
  | contextT
  | browserT
  deriving Repr, DecidableEq

/-- Ghost trace events of the manager: a close attempt on a resource, an
absorbed (logged, not propagated) close error, and a browser launch. -/
inductive MgrEvent where
  | closeAttempt (t : CloseTarget) (sid : String)
  | closeErrorLogged (t : CloseTarget) (sid : String)
  | launched (sid : String)
  deriving Repr, DecidableEq

/-- State of the `MultiSessionManager` singleton: the session map, a fresh
handle counter, a launch counter (the "launch counter" the spec's testable
property refers to), and the ghost event trace. -/
structure ManagerState where
  sessions : List (String × BrowserSession)
  nextId : Nat
  launchCount : Nat
  events : List MgrEvent
  deriving Repr, DecidableEq

/-- The manager with no sessions. -/
def emptyManager : ManagerState :=
  { sessions := [], nextId := 1, launchCount := 0, events := [] }

/-- Embedding of `ensureSession`: insert a fresh resource-set entry (with the
session-unique profile directory and storage-state path) if none exists, and
return the session's entry. -/
def ensureSession (sid : String) (m : ManagerState) : BrowserSession × ManagerState :=
  match getA m.sessions sid with
  | some s => (s, m)
  | none =>
      let s : BrowserSession :=
        { browser := none, context := none, page := none,
          userDataDir := ".playwright-sessions/" ++ sid,
          storageStatePath := ".playwright-storage-states/" ++ sid ++ "-state.json" }
      (s, { m with sessions := setA m.sessions sid s })

/-- Embedding of `ensureBrowser`: if the session has no browser or its
browser has disconnected, launch a persistent context (one launch: fresh
browser and context handles, launch counter incremented) and store both
handles; otherwise return the existing connected browser.  The page slot is
not touched. -/
def ensureBrowser (sid : String) (m : ManagerState) : BrowserHandle × ManagerState :=
  let r := ensureSession sid m
  let s := r.1
  let m0 := r.2
  match s.browser with
  | some b =>
      if b.connected then (b, m0)
      else
        let bh : BrowserHandle := { id := m0.nextId, connected := true, failOnClose := false }
        let ch : ContextHandle := { id := m0.nextId + 1, failOnClose := false }
        (bh, { m0 with
                sessions := setA m0.sessions sid { s with browser := some bh, context := some ch },
                nextId := m0.nextId + 2,
                launchCount := m0.launchCount + 1,
                events := m0.events ++ [.launched sid] })
  | none =>
      let bh : BrowserHandle := { id := m0.nextId, connected := true, failOnClose := false }
      let ch : ContextHandle := { id := m0.nextId + 1, failOnClose := false }
      (bh, { m0 with
              sessions := setA m0.sessions sid { s with browser := some bh, context := some ch },
              nextId := m0.nextId + 2,
              launchCount := m0.launchCount + 1,
              events := m0.events ++ [.launched sid] })

/-- Default context handle standing in for the non-null assertion
`session.context!` of the source (never reached along the modelled paths). -/
def defaultContextHandle : ContextHandle := { id := 0, failOnClose := false }

/-- Embedding of `ensureContext`: the context is created by `ensureBrowser`
via `launchPersistentContext`; if absent, ensure the browser first. -/
def ensureContext (sid : String) (m : ManagerState) : ContextHandle × ManagerState :=
  let r := ensureSession sid m
  let s := r.1
  let m0 := r.2
  match s.context with
  | some c => (c, m0)
  | none =>
      let m1 := (ensureBrowser sid m0).2
      (((getA m1.sessions sid).bind (fun s2 => s2.context)).getD defaultContextHandle, m1)

/-- Embedding of `ensurePage`: reuse the session's page if present and not
closed; otherwise open a new page on the ensured context. -/
def ensurePage (sid : String) (m : ManagerState) : PageHandle × ManagerState :=
  let r := ensureSession sid m
  let s := r.1
  let m0 := r.2
  match s.page with
  | some p =>
      if p.closed then
        let r1 := ensureContext sid m0
        let m1 := r1.2
        let ph : PageHandle := { id := m1.nextId, closed := false, failOnClose := false }
        let s1 := ((getA m1.sessions sid).getD s)
        (ph, { m1 with
                sessions := setA m1.sessions sid { s1 with page := some ph },
                nextId := m1.nextId + 1 })
      else (p, m0)
  | none =>
      let r1 := ensureContext sid m0
      let m1 := r1.2
      let ph : PageHandle := { id := m1.nextId, closed := false, failOnClose := false }
      let s1 := ((getA m1.sessions sid).getD s)
      (ph, { m1 with
              sessions := setA m1.sessions sid { s1 with page := some ph },
              nextId := m1.nextId + 1 })

/-- Ghost events produced by one teardown of a session's resource set:
page close attempted when a page exists and is open, then context close
attempted when a context exists, then browser close attempted when a
connected browser exists; a step whose `close()` throws logs the error and
continues. -/
def cleanupEvents (sid : String) (s : BrowserSession) : List MgrEvent :=
  (match s.page with
   | some p =>
       if p.closed then []
       else .closeAttempt .pageT sid ::
         (if p.failOnClose then [.closeErrorLogged .pageT sid] else [])
   | none => []) ++
  (match s.context with
   | some c =>
       .closeAttempt .contextT sid ::
         (if c.failOnClose then [.closeErrorLogged .contextT sid] else [])
   | none => []) ++
  (match s.browser with
   | some b =>
       if b.connected then
         .closeAttempt .browserT sid ::
           (if b.failOnClose then [.closeErrorLogged .browserT sid] else [])
       else []
   | none => [])

/-- Embedding of the manager's `cleanupSession`: no-op when the session is
unknown; otherwise attempt the three close steps in order — each wrapped in
its own try/catch so an error is logged and absorbed — then null the handles
and delete the session's map entry.  The function is total: no close error
propagates to the caller. -/
def mgrCleanupSession (sid : String) (m : ManagerState) : ManagerState :=
  match getA m.sessions sid with
  | none => m
  | some s =>
      { m with
        sessions := delA m.sessions sid,
        events := m.events ++ cleanupEvents sid s }

/-! ## MultiExecutor (execution context registry)

Embedding of the `MultiExecutor` class: one vm context (durable namespace),
one page-console buffer and one session-console buffer per session id, the
set of sessions whose page already has a console listener, and the shared
session manager.  Page-originated console lines delivered during a run are
passed to `execute` as an explicit list; they reach the buffer only once the
console listener has been registered for the session.
-/

/-- The executor's state. -/
structure ExecutorState where
  contexts : List (String × List (String × Value))
  consoleMessages : List (String × List String)
  sessionConsoleMessages : List (String × List String)
  consoleHandlersRegistered : List String
  sessionManager : ManagerState
  deriving Repr, DecidableEq

/-- The executor right after construction. -/
def emptyExecutorState : ExecutorState :=
  { contexts := [], consoleMessages := [], sessionConsoleMessages := [],
    consoleHandlersRegistered := [], sessionManager := emptyManager }

/-- The per-fragment result record returned by `execute`. -/
structure ExecutionResult where
  success : Bool
  result : Option Value
  error : Option String
  stack : Option String
  browserConsoleLogs : List String
  sessionConsoleLogs : List String
  deriving Repr, DecidableEq

/-- The capability surface `initializeContext` installs in a fresh vm
context, followed by the `const global = globalThis; const self = globalThis;`
bootstrap script.  Host functions and objects are opaque handles; `browser`,
`context` and `page` are deliberately absent until the first lazy binding. -/
def initCtx (sid : String) : List (String × Value) :=
  [("console", .handle "console" 0),
   ("setTimeout", .handle "function" 0),
   ("setInterval", .handle "function" 0),
   ("clearTimeout", .handle "function" 0),
   ("clearInterval", .handle "function" 0),
   ("Buffer", .handle "Buffer" 0),
   ("process", .handle "process" 0),
   ("require", .handle "function" 0),
   ("URL", .handle "function" 0),
   ("URLSearchParams", .handle "function" 0),
   ("playwright", .handle "playwright" 0),
   ("chromium", .handle "chromium" 0),
   ("firefox", .handle "firefox" 0),
   ("webkit", .handle "webkit" 0),
   ("devices", .handle "devices" 0),
   ("sessionManager", .handle "sessionManager" 0),
   ("sessionId", .str sid),
   ("sharedState", .handle "sharedState" 0),
   ("assert", .handle "function" 0),
   ("global", .globalRef),
   ("self", .globalRef)]

/-- Embedding of `initializeContext`: create the session's vm context and
reset both console buffers to empty. -/
def initContext (st : ExecutorState) (sid : String) : ExecutorState :=
  { st with
    contexts := setA st.contexts sid (initCtx sid),
    consoleMessages := setA st.consoleMessages sid [],
    sessionConsoleMessages := setA st.sessionConsoleMessages sid [] }

/-- The `typeof x !== 'undefined' ? x : null` probe of a context global. -/
def probeGlobal (ctx : List (String × Value)) (x : String) : Value :=
  match getA ctx x with
  | some v => v
  | none => .nullV

/-- Embedding of `ensurePlaywrightInitialized`: throw if the session has no
context (unreachable from `execute`, which creates the context first);
otherwise, when any of the `browser`/`context`/`page` globals is falsy,
ensure the manager's resource triple, bind the three handles into the durable
namespace, and register the page-console listener once per session. -/
def ensurePW (st : ExecutorState) (sid : String) : Option ExecutorState :=
  match getA st.contexts sid with
  | none => none
  | some ctx =>
      if (probeGlobal ctx "browser").truthy && (probeGlobal ctx "context").truthy
          && (probeGlobal ctx "page").truthy then
        some st
      else
        let r1 := ensureBrowser sid st.sessionManager
        let r2 := ensureContext sid r1.2
        let r3 := ensurePage sid r2.2
        let ctx2 := setA (setA (setA ctx "browser" (.handle "browser" r1.1.id))
                      "context" (.handle "context" r2.1.id))
                    "page" (.handle "page" r3.1.id)
        some { st with
                contexts := setA st.contexts sid ctx2,
                sessionManager := r3.2,
                consoleHandlersRegistered :=
                  if st.consoleHandlersRegistered.contains sid then
                    st.consoleHandlersRegistered
                  else sid :: st.consoleHandlersRegistered }

/-- Create the session's context on first use, as `execute` does. -/
def initIfAbsent (st : ExecutorState) (sid : String) : ExecutorState :=
  if (getA st.contexts sid).isSome then st else initContext st sid

/-- The prepared state of a run: context created on first use, playwright
lazily bound.  (The `none` fallback of `ensurePW` cannot occur after
`initIfAbsent`.) -/
def prepState (st : ExecutorState) (sid : String) : ExecutorState :=
  (ensurePW (initIfAbsent st sid) sid).getD (initIfAbsent st sid)

/-- The vm context a fragment for `sid` actually runs in. -/
def runCtx (st : ExecutorState) (sid : String) : List (String × Value) :=
  (getA (prepState st sid).contexts sid).getD []

/-- The session-console lines a run of `code` on session `sid` from executor
state `st` emits. -/
def runEmits (st : ExecutorState) (sid : String) (code : Source) : List String :=
  (vmRunFragment (rewriteCodeToTrackVariables code) (runCtx st sid)).2.2

/-- The main path of `execute` once the session's context exists and
playwright is ensured (`st2` is the prepared state): rewrite the fragment,
evaluate it wrapped in the async IIFE, then drain (read and clear) both
console buffers and shape the result.  `pageEvents` are the page-originated
console lines delivered while the fragment runs; they reach the page buffer
only if the console listener is registered.  Both the success and the
failure arm drain the buffers. -/
def executeMain (st2 : ExecutorState) (sid : String) (code : Source)
    (pageEvents : List String) : ExecutionResult × ExecutorState :=
  let ctx := (getA st2.contexts sid).getD []
  let rewritten := rewriteCodeToTrackVariables code
  let run := vmRunFragment rewritten ctx
  let brBuf := (getA st2.consoleMessages sid).getD [] ++
    (if st2.consoleHandlersRegistered.contains sid then pageEvents else [])
  let sessBuf := (getA st2.sessionConsoleMessages sid).getD [] ++ run.2.2
  let st3 : ExecutorState :=
    { st2 with
      contexts := setA st2.contexts sid run.2.1,
      consoleMessages := setA st2.consoleMessages sid [],
      sessionConsoleMessages := setA st2.sessionConsoleMessages sid [] }
  match run.1 with
  | .ok retOpt =>
      ({ success := true,
         result := match retOpt with
                   | some v => if v = .undef then none else some v
                   | none => none,
         error := none, stack := none,
         browserConsoleLogs := brBuf, sessionConsoleLogs := sessBuf }, st3)
  | .error msg =>
      ({ success := false, result := none,
         error := some msg, stack := some msg,
         browserConsoleLogs := brBuf, sessionConsoleLogs := sessBuf }, st3)

/-- Embedding of `MultiExecutor.execute`: create the session's context on
first use, lazily bind playwright, then run the main path.  The `none` arm
embeds the `Session ${sessionId} not initialized` throw of
`ensurePlaywrightInitialized`, caught by execute's catch arm, which still
drains the buffers; it is unreachable through this entry point because the
context has just been created. -/
def execute (st : ExecutorState) (sid : String) (code : Source)
    (pageEvents : List String) : ExecutionResult × ExecutorState :=
  let st1 := initIfAbsent st sid
  match ensurePW st1 sid with
  | none =>
      let brBuf := (getA st1.consoleMessages sid).getD []
      let sessBuf := (getA st1.sessionConsoleMessages sid).getD []
      ({ success := false, result := none,
         error := some ("Session " ++ sid ++ " not initialized"),
         stack := some ("Session " ++ sid ++ " not initialized"),
         browserConsoleLogs := brBuf, sessionConsoleLogs := sessBuf },
       { st1 with
          consoleMessages := setA st1.consoleMessages sid [],
          sessionConsoleMessages := setA st1.sessionConsoleMessages sid [] })
  | some st2 => executeMain st2 sid code pageEvents

/-! ## Interleaved ensureBrowser calls

The body of `ensureBrowser` suspends between its browser-null/disconnected
check and the completion of `await playwright.chromium.launchPersistentContext(...)`.
Under the cooperative event loop, two overlapping invocations for the same
session id interleave at that await point.  Each in-flight invocation is
modelled as an atomic check step (everything up to the decision to launch)
followed by an atomic completion step (the resolved launch assigning the
handles); running one invocation's two steps back to back coincides with the
atomic `ensureBrowser` above (`taskStep_seq_eq_ensureBrowser`).
-/

/-- Phase of one in-flight `ensureBrowser` invocation. -/
inductive TaskPhase where
  | ready
  | launching
  | finished (b : BrowserHandle)
  deriving Repr, DecidableEq

/-- One cooperative step of an in-flight `ensureBrowser(sid)` invocation. -/
def taskStep (sid : String) : TaskPhase × ManagerState → TaskPhase × ManagerState
  | (.ready, m) =>
      let r := ensureSession sid m
      match r.1.browser with
      | some b => if b.connected then (.finished b, r.2) else (.launching, r.2)
      | none => (.launching, r.2)
  | (.launching, m) =>
      let r := ensureSession sid m
      let s := r.1
      let m0 := r.2
      let bh : BrowserHandle := { id := m0.nextId, connected := true, failOnClose := false }
      let ch : ContextHandle := { id := m0.nextId + 1, failOnClose := false }
      (.finished bh,
        { m0 with
          sessions := setA m0.sessions sid { s with browser := some bh, context := some ch },
          nextId := m0.nextId + 2,
          launchCount := m0.launchCount + 1,
          events := m0.events ++ [.launched sid] })
  | (.finished b, m) => (.finished b, m)

/-- Two overlapping `ensureBrowser` invocations for one session id, plus the
shared manager state. -/
structure RacePair where
  t0 : TaskPhase
  t1 : TaskPhase
  mgr : ManagerState
  deriving Repr, DecidableEq

/-- Advance the chosen invocation (`false` = first, `true` = second) by one
cooperative step. -/
def raceStep (sid : String) (which : Bool) (rp : RacePair) : RacePair :=
  if which then
    let r := taskStep sid (rp.t1, rp.mgr)
    { rp with t1 := r.1, mgr := r.2 }
  else
    let r := taskStep sid (rp.t0, rp.mgr)
    { rp with t0 := r.1, mgr := r.2 }

/-- Run a cooperative schedule over the two invocations. -/
def runSchedule (sid : String) : List Bool → RacePair → RacePair
  | [], rp => rp
  | w :: rest, rp => runSchedule sid rest (raceStep sid w rp)

/-- Both invocations pending against a given manager state. -/
def racePairStart (m : ManagerState) : RacePair :=
  { t0 := .ready, t1 := .ready, mgr := m }

theorem taskStep_seq_eq_ensureBrowser (sid : String) (m : ManagerState) :
    taskStep sid (taskStep sid (.ready, m)) =
      (.finished (ensureBrowser sid m).1, (ensureBrowser sid m).2) := by
  unfold taskStep ensureBrowser
  rcases h : (ensureSession sid m).1.browser with _ | b
  · simp only [h]
    have hidem : ensureSession sid (ensureSession sid m).2 = ensureSession sid m := by
      unfold ensureSession
      rcases hg : getA m.sessions sid with _ | s
      · simp only [hg, getA_setA_same]
      · simp only [hg]
    simp [hidem, h]
  · by_cases hc : b.connected
    · simp [h, hc]
    · simp only [h, hc, if_false]
      have hidem : ensureSession sid (ensureSession sid m).2 = ensureSession sid m := by
        unfold ensureSession
        rcases hg : getA m.sessions sid with _ | s
        · simp only [hg, getA_setA_same]
        · simp only [hg]
      simp [hidem, h, hc]

/-! ## Lemmas about the rewrite pass -/

theorem Block.append_cons_nil (s : Stmt) (b : Block) :
    Block.append (Block.cons s .nil) b = Block.cons s b := rfl

mutual
theorem rewriteStmt_spec (inFn : Bool) (s : Stmt) :
    rewriteStmt inFn s = (specOne inFn s, if inFn then stmtDeclM s else []) := by
  cases s with
  | decl pat init =>
      cases inFn <;> simp [rewriteStmt, specOne, stmtDeclM]
  | exprStmt e =>
      cases inFn <;> simp [rewriteStmt, specOne, stmtDeclM]
  | funcDecl f body =>
      have ih := rewriteBlock_spec true body
      cases inFn <;> simp [rewriteStmt, specOne, stmtDeclM, ih]
  | ret e =>
      cases e <;> cases inFn <;> simp [rewriteStmt, specOne, stmtDeclM]
  | consoleLog e =>
      cases inFn <;> simp [rewriteStmt, specOne, stmtDeclM]

theorem rewriteBlock_spec (inFn : Bool) (b : Block) :
    rewriteBlock inFn b = (specTrack inFn b, if inFn then declMirrorsAfterFn b else []) := by
  cases b with
  | nil => cases inFn <;> simp [rewriteBlock, specTrack, declMirrorsAfterFn]
  | cons s rest =>
      have ihs := rewriteStmt_spec inFn s
      have ihr := rewriteBlock_spec inFn rest
      cases inFn <;> simp [rewriteBlock, specTrack, declMirrorsAfterFn, ihs, ihr]
end

mutual
theorem rewriteStmt_id_of_noMatch (inFn : Bool) (s : Stmt) (h : stmtMatches s = []) :
    rewriteStmt inFn s = (Block.cons s .nil, []) := by
  cases s with
  | decl pat init =>
      have h1 : patTrackedDecl pat = [] := by
        have := List.append_eq_nil.mp h
        exact this.1
      have h2 : exprTrackedAssigns init = [] := by
        have := List.append_eq_nil.mp h
        exact this.2
      cases inFn <;> simp [rewriteStmt, h1, h2, listToBlock]
  | exprStmt e =>
      have h2 : exprTrackedAssigns e = [] := h
      simp [rewriteStmt, h2, listToBlock]
  | funcDecl f body =>
      have hb : blockMatches body = [] := h
      have ih := rewriteBlock_id_of_noMatch true body hb
      simp [rewriteStmt, ih, listToBlock]
  | ret e =>
      cases e with
      | none => simp [rewriteStmt]
      | some e' =>
          have h2 : exprTrackedAssigns e' = [] := h
          simp [rewriteStmt, h2, listToBlock]
  | consoleLog e =>
      have h2 : exprTrackedAssigns e = [] := h
      simp [rewriteStmt, h2, listToBlock]

theorem rewriteBlock_id_of_noMatch (inFn : Bool) (b : Block) (h : blockMatches b = []) :
    rewriteBlock inFn b = (b, []) := by
  cases b with
  | nil => simp [rewriteBlock]
  | cons s rest =>
      have hs : stmtMatches s = [] := (List.append_eq_nil.mp h).1
      have hr : blockMatches rest = [] := (List.append_eq_nil.mp h).2
      have ihs := rewriteStmt_id_of_noMatch inFn s hs
      have ihr := rewriteBlock_id_of_noMatch inFn rest hr
      simp [rewriteBlock, ihs, ihr, Block.append_cons_nil]
end


/-! ## Lemmas about the executor pipeline -/

theorem initIfAbsent_ctx_isSome (st : ExecutorState) (sid : String) :
    (getA (initIfAbsent st sid).contexts sid).isSome := by
  unfold initIfAbsent
  by_cases h : (getA st.contexts sid).isSome
  · simp [h]
  · simp only [h, if_false]
    exact isSome_getA_setA _ _ _

theorem ensurePW_isSome_of_ctx (st : ExecutorState) (sid : String)
    (h : (getA st.contexts sid).isSome) : (ensurePW st sid).isSome := by
  obtain ⟨ctx, hc⟩ := Option.isSome_iff_exists.mp h
  unfold ensurePW
  simp only [hc]
  split <;> rfl

theorem prepState_eq (st : ExecutorState) (sid : String) (st2 : ExecutorState)
    (h : ensurePW (initIfAbsent st sid) sid = some st2) : prepState st sid = st2 := by
  unfold prepState
  rw [h]
  rfl

theorem execute_eq_main (st : ExecutorState) (sid : String) (code : Source)
    (ev : List String) :
    execute st sid code ev = executeMain (prepState st sid) sid code ev := by
  obtain ⟨st2, h⟩ := Option.isSome_iff_exists.mp
    (ensurePW_isSome_of_ctx _ _ (initIfAbsent_ctx_isSome st sid))
  unfold execute
  simp only [h]
  rw [prepState_eq st sid st2 h]

theorem ensurePW_preserves (st : ExecutorState) (sid : String) (st2 : ExecutorState)
    (h : ensurePW st sid = some st2) :
    st2.consoleMessages = st.consoleMessages ∧
    st2.sessionConsoleMessages = st.sessionConsoleMessages := by
  unfold ensurePW at h
  cases hc : getA st.contexts sid with
  | none =>
      rw [hc] at h
      exact Option.noConfusion h
  | some ctx =>
      rw [hc] at h
      simp only [] at h
      split at h <;> (injection h with h2; subst h2; exact ⟨rfl, rfl⟩)

theorem ensurePW_ctx_other (st : ExecutorState) (sid : String) (st2 : ExecutorState)
    (sidB : String) (h : ensurePW st sid = some st2) (hne : sidB ≠ sid) :
    getA st2.contexts sidB = getA st.contexts sidB := by
  unfold ensurePW at h
  cases hc : getA st.contexts sid with
  | none =>
      rw [hc] at h
      exact Option.noConfusion h
  | some ctx =>
      rw [hc] at h
      simp only [] at h
      split at h
      · injection h with h2; subst h2; rfl
      · injection h with h2; subst h2
        exact getA_setA_ne _ _ _ _ (Ne.symm hne)

theorem initIfAbsent_ctx_other (st : ExecutorState) (sid sidB : String)
    (hne : sidB ≠ sid) :
    getA (initIfAbsent st sid).contexts sidB = getA st.contexts sidB := by
  unfold initIfAbsent
  split
  · rfl
  · exact getA_setA_ne _ _ _ _ (Ne.symm hne)

theorem initIfAbsent_of_present (st : ExecutorState) (sid : String)
    (h : (getA st.contexts sid).isSome) : initIfAbsent st sid = st := by
  unfold initIfAbsent
  simp [h]

theorem executeMain_state (st2 : ExecutorState) (sid : String) (code : Source)
    (ev : List String) :
    (executeMain st2 sid code ev).2 =
      { st2 with
        contexts := setA st2.contexts sid
          (vmRunFragment (rewriteCodeToTrackVariables code)
            ((getA st2.contexts sid).getD [])).2.1,
        consoleMessages := setA st2.consoleMessages sid [],
        sessionConsoleMessages := setA st2.sessionConsoleMessages sid [] } := by
  unfold executeMain
  dsimp only
  split <;> rfl

theorem executeMain_logs (st2 : ExecutorState) (sid : String) (code : Source)
    (ev : List String) :
    (executeMain st2 sid code ev).1.sessionConsoleLogs =
      (getA st2.sessionConsoleMessages sid).getD [] ++
        (vmRunFragment (rewriteCodeToTrackVariables code)
          ((getA st2.contexts sid).getD [])).2.2 ∧
    (executeMain st2 sid code ev).1.browserConsoleLogs =
      (getA st2.consoleMessages sid).getD [] ++
        (if st2.consoleHandlersRegistered.contains sid then ev else []) := by
  unfold executeMain
  dsimp only
  split <;> exact ⟨rfl, rfl⟩

theorem execute_buffers_cleared (st : ExecutorState) (sid : String) (code : Source)
    (ev : List String) :
    getA (execute st sid code ev).2.consoleMessages sid = some [] ∧
    getA (execute st sid code ev).2.sessionConsoleMessages sid = some [] := by
  rw [execute_eq_main, executeMain_state]
  exact ⟨getA_setA_same _ _ _, getA_setA_same _ _ _⟩

theorem execute_ctx_isSome (st : ExecutorState) (sid : String) (code : Source)
    (ev : List String) :
    (getA (execute st sid code ev).2.contexts sid).isSome := by
  rw [execute_eq_main, executeMain_state]
  exact isSome_getA_setA _ _ _

theorem prepState_buffers (st : ExecutorState) (sid : String) :
    (prepState st sid).consoleMessages = (initIfAbsent st sid).consoleMessages ∧
    (prepState st sid).sessionConsoleMessages = (initIfAbsent st sid).sessionConsoleMessages := by
  obtain ⟨st2, h⟩ := Option.isSome_iff_exists.mp
    (ensurePW_isSome_of_ctx _ _ (initIfAbsent_ctx_isSome st sid))
  rw [prepState_eq st sid st2 h]
  exact ensurePW_preserves _ _ _ h

theorem prepState_three_truthy (st : ExecutorState) (sid : String) :
    (probeGlobal (runCtx st sid) "browser").truthy = true ∧
    (probeGlobal (runCtx st sid) "context").truthy = true ∧
    (probeGlobal (runCtx st sid) "page").truthy = true := by
  obtain ⟨st2, h⟩ := Option.isSome_iff_exists.mp
    (ensurePW_isSome_of_ctx _ _ (initIfAbsent_ctx_isSome st sid))
  unfold runCtx
  rw [prepState_eq st sid st2 h]
  unfold ensurePW at h
  cases hc : getA (initIfAbsent st sid).contexts sid with
  | none =>
      rw [hc] at h
      exact Option.noConfusion h
  | some ctx =>
      rw [hc] at h
      simp only [] at h
      split at h
      · rename_i hcond
        injection h with h2
        subst h2
        rw [hc]
        simp only [Bool.and_eq_true] at hcond
        exact ⟨hcond.1.1, hcond.1.2, hcond.2⟩
      · injection h with h2
        subst h2
        simp only [getA_setA_same, Option.getD_some]
        refine ⟨?_, ?_, ?_⟩
        · rw [probeGlobal, getA_setA_ne _ _ _ _ (by decide),
            getA_setA_ne _ _ _ _ (by decide), getA_setA_same]
          rfl
        · rw [probeGlobal, getA_setA_ne _ _ _ _ (by decide), getA_setA_same]
          rfl
        · rw [probeGlobal, getA_setA_same]
          rfl

theorem ensurePW_noop (st : ExecutorState) (sid : String)
    (ctx : List (String × Value)) (hc : getA st.contexts sid = some ctx)
    (hb : (probeGlobal ctx "browser").truthy = true)
    (hx : (probeGlobal ctx "context").truthy = true)
    (hp : (probeGlobal ctx "page").truthy = true) :
    ensurePW st sid = some st := by
  unfold ensurePW
  simp only [hc]
  simp [hb, hx, hp]

theorem getA_eq_none_of_not_mem {α : Type} (l : List (String × α)) (k : String)
    (h : k ∉ l.map Prod.fst) : getA l k = none := by
  induction l with
  | nil => rfl
  | cons hd tl ih =>
      obtain ⟨k', v'⟩ := hd
      simp only [List.map_cons, List.mem_cons, not_or] at h
      rw [getA, if_neg (fun hh => h.1 hh.symm)]
      exact ih h.2

theorem getA_delA_self_of_nodup {α : Type} (l : List (String × α)) (k : String)
    (h : (l.map Prod.fst).Nodup) : getA (delA l k) k = none := by
  induction l with
  | nil => rfl
  | cons hd tl ih =>
      obtain ⟨k', v'⟩ := hd
      simp only [List.map_cons, List.nodup_cons] at h
      by_cases he : k' = k
      · subst he
        rw [delA, if_pos rfl]
        exact getA_eq_none_of_not_mem tl k' h.1
      · rw [delA, if_neg he, getA, if_neg he]
        exact ih h.2

theorem tracked_cases (x : String) (hx : trackedVariables.contains x = true) :
    x = "page" ∨ x = "browser" ∨ x = "context" ∨ x = "sessionManager" := by
  have : x ∈ trackedVariables := by simpa [trackedVariables] using hx
  simpa [trackedVariables] using this

theorem tracked_ne_globalThis (x : String) (hx : trackedVariables.contains x = true) :
    x ≠ "globalThis" := by
  rcases tracked_cases x hx with h | h | h | h <;> subst h <;> decide

theorem truthy_ne_undef (v : Value) (hv : v.truthy = true) : v ≠ .undef := by
  cases v <;> simp_all [Value.truthy]

theorem probe_after_set (c : List (String × Value)) (x y : String) (v : Value)
    (hv : v.truthy = true) (hy : (probeGlobal c y).truthy = true) :
    (probeGlobal (setA c x v) y).truthy = true := by
  by_cases h : x = y
  · subst h
    simp [probeGlobal, getA_setA_same, hv]
  · rw [probeGlobal, getA_setA_ne _ _ _ _ h]
    exact hy

theorem run_ret_var (ctx : List (String × Value)) (x : String)
    (hne : x ≠ "globalThis") (v : Value) (hget : getA ctx x = some v) :
    vmRunFragment
        (rewriteCodeToTrackVariables (.prog (.cons (.ret (some (.var x))) .nil))) ctx
      = (.ok (some v), ctx, []) := by
  simp [rewriteCodeToTrackVariables, parseFragment, rewriteProgram, rewriteBlock,
    rewriteStmt, exprTrackedAssigns, listToBlock, Block.append, vmRunFragment,
    execBlock, evalExpr, getA, hne, hget]

theorem run_write_decl (ctx : List (String × Value)) (x : String) (v : Value)
    (hx : trackedVariables.contains x = true) (hne : x ≠ "globalThis") :
    vmRunFragment
        (rewriteCodeToTrackVariables (.prog (.cons (.decl (.id x) (.lit v)) .nil))) ctx
      = (.ok none, setA ctx x v, []) := by
  have hmem : x ∈ trackedVariables := by simpa [trackedVariables] using hx
  simp [rewriteCodeToTrackVariables, parseFragment, rewriteProgram, rewriteBlock,
    rewriteStmt, patTrackedDecl, exprTrackedAssigns, hx, hmem, listToBlock,
    Block.append, vmRunFragment, execBlock, evalExpr, bindPat, mirrorStmt, getA,
    setA, hne]

theorem run_write_assign (ctx : List (String × Value)) (x : String) (v : Value)
    (hx : trackedVariables.contains x = true) (hne : x ≠ "globalThis") :
    vmRunFragment
        (rewriteCodeToTrackVariables
          (.prog (.cons (.exprStmt (.assignId x (.lit v))) .nil))) ctx
      = (.ok none, setA (setA ctx x v) x v, []) := by
  have hmem : x ∈ trackedVariables := by simpa [trackedVariables] using hx
  simp [rewriteCodeToTrackVariables, parseFragment, rewriteProgram, rewriteBlock,
    rewriteStmt, patTrackedDecl, exprTrackedAssigns, hx, hmem, listToBlock,
    Block.append, vmRunFragment, execBlock, evalExpr, bindPat, mirrorStmt, getA,
    setA, hne, getA_setA_same]

theorem exec_read (st' : ExecutorState) (sid x : String) (v : Value)
    (ev : List String) (ctx' : List (String × Value))
    (hctx : getA st'.contexts sid = some ctx')
    (hx : getA ctx' x = some v) (hne : x ≠ "globalThis")
    (hb : (probeGlobal ctx' "browser").truthy = true)
    (hcx : (probeGlobal ctx' "context").truthy = true)
    (hp : (probeGlobal ctx' "page").truthy = true)
    (hv : v ≠ .undef) :
    (execute st' sid (.prog (.cons (.ret (some (.var x))) .nil)) ev).1.result = some v := by
  have hIIA : initIfAbsent st' sid = st' :=
    initIfAbsent_of_present _ _ (by rw [hctx]; rfl)
  have hens : ensurePW st' sid = some st' := ensurePW_noop st' sid ctx' hctx hb hcx hp
  have hprep : prepState st' sid = st' := prepState_eq _ _ _ (by rw [hIIA]; exact hens)
  rw [execute_eq_main, hprep]
  unfold executeMain
  rw [hctx]
  dsimp only [Option.getD_some]
  rw [run_ret_var ctx' x hne v hx]
  simp [hv]

/-! ## Claim theorems -/

/-- Claim C3 (rewriter injection contract): for every parseable fragment, the
rewriter's output is exactly the spec-mandated injection — for each
bare-identifier tracked declaration a `globalThis.<n> = <n>` statement after
the nearest enclosing function or, if none, after the declaration statement
itself; for each bare-identifier tracked assignment a mirror after the
nearest enclosing statement; and no other change.  `specTrack` is the
independent formalisation of the spec's sentence; the theorem states that
the Babel-visitor embedding coincides with it on every program, both at the
tree level and through the parse/regenerate pipeline. -/
theorem rewriter_matches_spec_contract (prog : Block) :
    rewriteProgram prog = specTrack false prog ∧
    rewriteCodeToTrackVariables (.prog prog) = .prog (specTrack false prog) := by
  have h := rewriteBlock_spec false prog
  constructor
  · unfold rewriteProgram
    rw [h]
  · simp only [rewriteCodeToTrackVariables, parseFragment, rewriteProgram, h]

/-- Claim C9 (rewrite identity on no-op input): a fragment containing no
declaration of and no assignment to any tracked name is returned unchanged
by the rewriter, both at the tree level and through the parse/regenerate
pipeline (module-syntax formatting is abstracted by working on trees). -/
theorem rewrite_identity_no_tracked (prog : Block) (h : blockMatches prog = []) :
    rewriteProgram prog = prog ∧
    rewriteCodeToTrackVariables (.prog prog) = .prog prog := by
  have h2 := rewriteBlock_id_of_noMatch false prog h
  constructor
  · unfold rewriteProgram
    rw [h2]
  · simp only [rewriteCodeToTrackVariables, parseFragment, rewriteProgram, h2]

/-- Program used to witness claim C9: it assigns and declares only untracked
names. -/
def c9prog : Block :=
  .cons (.exprStmt (.assignId "foo" (.lit (.num 1))))
    (.cons (.decl (.id "bar") (.lit (.num 2)))
      (.cons (.consoleLog (.var "foo")) .nil))

/-- Witness for C9 at a concrete fragment with no tracked matches. -/
theorem rewrite_identity_no_tracked_witness :
    blockMatches c9prog = [] ∧
    (rewriteProgram c9prog = c9prog ∧
     rewriteCodeToTrackVariables (.prog c9prog) = .prog c9prog) :=
  ⟨by decide, rewrite_identity_no_tracked c9prog (by decide)⟩

/-- Fragment shape for claim C10: a tracked name bound through an object
destructuring pattern, through an array destructuring pattern, and assigned
through a member expression. -/
def destructProg (names : List String) (init o rhs : Expr) (x : String) : Block :=
  .cons (.decl (.objPat names) init)
    (.cons (.decl (.arrPat names) init)
      (.cons (.exprStmt (.assignMember o x rhs)) .nil))

/-- Claim C10 (implicit — bare-identifier-only tracking): when a tracked
name is bound only through destructuring patterns or assigned only through a
member expression, the rewriter inserts no mirroring statement (the fragment
is returned unchanged), and running the rewritten fragment does not write the
durable namespace: for literal components (and a member target other than the
global object itself) the globals are untouched, so the binding does not
persist via the tracker. -/
theorem destructuring_not_tracked (x : String)
    (hx : trackedVariables.contains x = true)
    (names : List String) (hmem : x ∈ names) (init o rhs : Expr)
    (hinit : exprTrackedAssigns init = [])
    (ho : exprTrackedAssigns o = [])
    (hrhs : exprTrackedAssigns rhs = []) :
    rewriteProgram (destructProg names init o rhs x) = destructProg names init o rhs x ∧
    rewriteCodeToTrackVariables (.prog (destructProg names init o rhs x)) =
      .prog (destructProg names init o rhs x) ∧
    (∀ (v w : Value) (st : RState), w ≠ .globalRef →
      (execBlock (rewriteProgram (destructProg names (.lit v) (.lit w) (.lit v) x)) st).2.globals
          = st.globals ∧
      (execBlock (rewriteProgram (destructProg names (.lit v) (.lit w) (.lit v) x)) st).1
          = .ok none) := by
  have hnm : blockMatches (destructProg names init o rhs x) = [] := by
    simp [destructProg, blockMatches, stmtMatches, patTrackedDecl, exprTrackedAssigns,
      hinit, ho, hrhs]
  have hid := rewriteBlock_id_of_noMatch false _ hnm
  refine ⟨?_, ?_, ?_⟩
  · unfold rewriteProgram
    rw [hid]
  · simp only [rewriteCodeToTrackVariables, parseFragment, rewriteProgram, hid]
  · intro v w st hw
    have hnm2 : blockMatches (destructProg names (.lit v) (.lit w) (.lit v) x) = [] := by
      simp [destructProg, blockMatches, stmtMatches, patTrackedDecl, exprTrackedAssigns]
    have hid2 := rewriteBlock_id_of_noMatch false _ hnm2
    have hrw : rewriteProgram (destructProg names (.lit v) (.lit w) (.lit v) x)
        = destructProg names (.lit v) (.lit w) (.lit v) x := by
      unfold rewriteProgram
      rw [hid2]
    rw [hrw]
    cases w <;> simp_all [destructProg, execBlock, evalExpr, bindPat]

/-- Witness for C10: the tracked name `page` bound by destructuring and
assigned through a member expression; the durable slot `page` keeps its old
value. -/
theorem destructuring_not_tracked_witness :
    trackedVariables.contains "page" = true ∧
    (execBlock (rewriteProgram
        (destructProg ["page"] (.lit (.num 1)) (.lit (.num 2)) (.lit (.num 1)) "page"))
      { locals := [], globals := [("page", Value.num 9)], logs := [] }).2.globals
      = [("page", Value.num 9)] := by
  refine ⟨by decide, ?_⟩
  have h := (destructuring_not_tracked "page" (by decide) ["page"] (by decide)
    (.lit (.num 1)) (.lit (.num 2)) (.lit (.num 1)) rfl rfl rfl).2.2
    (.num 1) (.num 2) { locals := [], globals := [("page", Value.num 9)], logs := [] }
    (by decide)
  exact h.1

/-- Claim C4 (graceful rewrite fallback): the rewriter is a total function —
it never throws to its caller; on any input whose parse fails it returns the
original fragment unchanged (the failure is only logged as a diagnostic); and
a malformed fragment still reaches evaluation, where it surfaces as an
ordinary fragment-runtime failure (a SyntaxError thrown by the vm), never as
a failure of the rewrite step itself. -/
theorem rewrite_fallback_graceful (raw : String) (st : ExecutorState)
    (sid : String) (ev : List String) :
    rewriteCodeToTrackVariables (.malformed raw) = .malformed raw ∧
    (∀ code : Source, parseFragment code = none →
        rewriteCodeToTrackVariables code = code) ∧
    (execute st sid (.malformed raw) ev).1.success = false ∧
    (execute st sid (.malformed raw) ev).1.error = some ("SyntaxError: " ++ raw) := by
  refine ⟨rfl, ?_, ?_, ?_⟩
  · intro code hp
    cases code with
    | prog b => exact Option.noConfusion hp
    | malformed r => rfl
  · rw [execute_eq_main]
    simp [executeMain, rewriteCodeToTrackVariables, parseFragment, vmRunFragment]
  · rw [execute_eq_main]
    simp [executeMain, rewriteCodeToTrackVariables, parseFragment, vmRunFragment]

/-- Witness for C4 at a concretely malformed fragment. -/
theorem rewrite_fallback_graceful_witness :
    rewriteCodeToTrackVariables (.malformed "cons%t x =") = .malformed "cons%t x =" ∧
    rewriteCodeToTrackVariables (.malformed "oops(") = .malformed "oops(" ∧
    (execute emptyExecutorState "w4" (.malformed "cons%t x =") []).1.success = false ∧
    (execute emptyExecutorState "w4" (.malformed "cons%t x =") []).1.error
      = some ("SyntaxError: " ++ "cons%t x =") :=
  ⟨(rewrite_fallback_graceful "cons%t x =" emptyExecutorState "w4" []).1,
   (rewrite_fallback_graceful "cons%t x =" emptyExecutorState "w4" []).2.1
     (.malformed "oops(") rfl,
   (rewrite_fallback_graceful "cons%t x =" emptyExecutorState "w4" []).2.2.1,
   (rewrite_fallback_graceful "cons%t x =" emptyExecutorState "w4" []).2.2.2⟩

/-- Claim C7 (teardown ordering and error absorption): for a session holding
an open page, a context and a connected browser, `cleanupSession` attempts
the three closes in the order page, context, browser, whatever combination of
close steps throws (throws are logged as absorbed-error events and never
prevent the later attempts); afterwards the session's entry is gone from the
pool's map.  `mgrCleanupSession` is a total function, so no close error can
propagate to the caller. -/
theorem teardown_order_and_absorption (m : ManagerState) (sid : String)
    (s : BrowserSession) (p : PageHandle) (c : ContextHandle) (b : BrowserHandle)
    (hs : getA m.sessions sid = some s) (hp : s.page = some p)
    (hpo : p.closed = false) (hc : s.context = some c) (hb : s.browser = some b)
    (hbc : b.connected = true) (hnd : (m.sessions.map Prod.fst).Nodup) :
    (mgrCleanupSession sid m).events = m.events ++ cleanupEvents sid s ∧
    ((cleanupEvents sid s).filterMap (fun e =>
        match e with
        | MgrEvent.closeAttempt t _ => some t
        | _ => none))
      = [CloseTarget.pageT, CloseTarget.contextT, CloseTarget.browserT] ∧
    getA (mgrCleanupSession sid m).sessions sid = none := by
  refine ⟨?_, ?_, ?_⟩
  · unfold mgrCleanupSession
    simp [hs]
  · unfold cleanupEvents
    rw [hp, hc, hb]
    cases hf1 : p.failOnClose <;> cases hf2 : c.failOnClose <;> cases hf3 : b.failOnClose <;>
      simp [hpo, hbc, hf1, hf2, hf3]
  · unfold mgrCleanupSession
    simp only [hs]
    exact getA_delA_self_of_nodup m.sessions sid hnd

/-- Session record used to witness C7, with every close step set to throw. -/
def c7session : BrowserSession :=
  { browser := some { id := 5, connected := true, failOnClose := true },
    context := some { id := 6, failOnClose := true },
    page := some { id := 7, closed := false, failOnClose := true },
    userDataDir := "u", storageStatePath := "p" }

/-- Witness for C7: even with all three close steps throwing, the attempts
happen in page-context-browser order and the entry is removed. -/
theorem teardown_order_and_absorption_witness :
    getA [("x", c7session)] "x" = some c7session ∧
    ((cleanupEvents "x" c7session).filterMap (fun e =>
        match e with
        | MgrEvent.closeAttempt t _ => some t
        | _ => none))
      = [CloseTarget.pageT, CloseTarget.contextT, CloseTarget.browserT] ∧
    getA (mgrCleanupSession "x"
        { sessions := [("x", c7session)], nextId := 8, launchCount := 1,
          events := [] }).sessions "x" = none := by
  refine ⟨by decide, ?_, ?_⟩
  · exact (teardown_order_and_absorption
      { sessions := [("x", c7session)], nextId := 8, launchCount := 1, events := [] }
      "x" c7session _ _ _ (by decide) rfl rfl rfl rfl rfl (by decide)).2.1
  · exact (teardown_order_and_absorption
      { sessions := [("x", c7session)], nextId := 8, launchCount := 1, events := [] }
      "x" c7session _ _ _ (by decide) rfl rfl rfl rfl rfl (by decide)).2.2

/-- Claim C8 (amended — sequential ensure is idempotent): a second awaited
`ensureBrowser` call right after a first one for a session that had no
resources performs no further launch and returns the handle and state the
first call produced (exactly one launch in total); and once a session holds a
connected browser, `ensureBrowser` launches nothing and returns the existing
handle with the manager unchanged.  The in-flight collapsing asserted in the
original claim does not hold; see the counterexample. -/
theorem sequential_ensure_single_launch (m : ManagerState) (sid : String) :
    (getA m.sessions sid = none →
       ((ensureBrowser sid m).2.launchCount = m.launchCount + 1 ∧
        ensureBrowser sid (ensureBrowser sid m).2 =
          ((ensureBrowser sid m).1, (ensureBrowser sid m).2))) ∧
    (∀ (s : BrowserSession) (b : BrowserHandle),
       getA m.sessions sid = some s → s.browser = some b → b.connected = true →
       ensureBrowser sid m = (b, m)) := by
  constructor
  · intro h
    constructor
    · unfold ensureBrowser ensureSession
      simp [h]
    · unfold ensureBrowser ensureSession
      simp [h, getA_setA_same]
  · intro s b hs hb hbc
    unfold ensureBrowser ensureSession
    simp [hs, hb, hbc]

/-- Witness for C8's amended theorem: both halves exercised from the empty
manager — the first double-call launches once; afterwards a connected browser
exists and a third call returns it unchanged. -/
theorem sequential_ensure_single_launch_witness :
    getA emptyManager.sessions "wx" = none ∧
    ((ensureBrowser "wx" emptyManager).2.launchCount = emptyManager.launchCount + 1 ∧
     ensureBrowser "wx" (ensureBrowser "wx" emptyManager).2 =
       ((ensureBrowser "wx" emptyManager).1, (ensureBrowser "wx" emptyManager).2)) ∧
    ensureBrowser "wx" (ensureBrowser "wx" emptyManager).2 =
      ({ id := 1, connected := true, failOnClose := false },
        (ensureBrowser "wx" emptyManager).2) := by
  refine ⟨rfl, (sequential_ensure_single_launch emptyManager "wx").1 rfl, ?_⟩
  exact (sequential_ensure_single_launch (ensureBrowser "wx" emptyManager).2 "wx").2
    { browser := some { id := 1, connected := true, failOnClose := false },
      context := some { id := 2, failOnClose := false },
      page := none,
      userDataDir := ".playwright-sessions/wx",
      storageStatePath := ".playwright-storage-states/wx-state.json" }
    { id := 1, connected := true, failOnClose := false }
    (by decide) (by decide) (by decide)

/-- Counterexample to C8 as stated: two `ensureBrowser` calls in rapid
succession whose executions overlap at the launch await point — both pass the
browser-null check before either launch resolves — perform two launches, not
one: the pool does not collapse concurrent requests into a single in-flight
launch. -/
theorem concurrent_ensure_double_launch :
    (runSchedule "default" [false, true, false, true]
        (racePairStart emptyManager)).mgr.launchCount = 2 ∧
    ¬ ((runSchedule "default" [false, true, false, true]
        (racePairStart emptyManager)).mgr.launchCount = 1) :=
  ⟨rfl, by decide⟩

/-- Claim C2 (session isolation): a fragment executed in session A never
touches any other session's durable namespace — the contexts-map entry of
every other session id is unchanged by `execute`, so a tracked name bound in
A is not visible in B and the per-session vm contexts stay disjoint. -/
theorem session_isolation (st : ExecutorState) (sidA sidB : String)
    (code : Source) (ev : List String) (hne : sidB ≠ sidA) :
    getA (execute st sidA code ev).2.contexts sidB = getA st.contexts sidB := by
  obtain ⟨st2, h⟩ := Option.isSome_iff_exists.mp
    (ensurePW_isSome_of_ctx _ _ (initIfAbsent_ctx_isSome st sidA))
  rw [execute_eq_main, executeMain_state]
  dsimp only
  rw [getA_setA_ne _ _ _ _ (Ne.symm hne), prepState_eq st sidA st2 h,
    ensurePW_ctx_other _ _ _ _ h hne, initIfAbsent_ctx_other st sidA sidB hne]

/-- Witness for C2: binding the tracked name `page` in session `x` leaves
session `y` without any context at all. -/
theorem session_isolation_witness :
    ("y" ≠ "x") ∧
    getA (execute emptyExecutorState "x"
        (.prog (.cons (.exprStmt (.assignId "page" (.lit (.num 1)))) .nil))
        []).2.contexts "y" = getA emptyExecutorState.contexts "y" :=
  ⟨by decide,
   session_isolation emptyExecutorState "x" "y"
     (.prog (.cons (.exprStmt (.assignId "page" (.lit (.num 1)))) .nil)) []
     (by decide)⟩

/-- Claim C6 (amended — result is the explicit return value): the
ExecutionResult of a successful run carries the value produced by an explicit
top-level `return` statement of the fragment (the resolved value of the
implicit async wrapper) when that value is not undefined, and carries no
value for a fragment that merely ends in an expression — the async arrow
wrapper discards the final expression's completion value. -/
theorem result_is_explicit_return_value (st : ExecutorState) (sid : String)
    (v : Value) (ev : List String) (hv : v ≠ .undef) :
    ((execute st sid (.prog (.cons (.ret (some (.lit v))) .nil)) ev).1.success = true ∧
     (execute st sid (.prog (.cons (.ret (some (.lit v))) .nil)) ev).1.result = some v) ∧
    ((execute st sid (.prog (.cons (.exprStmt (.lit v)) .nil)) ev).1.success = true ∧
     (execute st sid (.prog (.cons (.exprStmt (.lit v)) .nil)) ev).1.result = none) := by
  refine ⟨⟨?_, ?_⟩, ⟨?_, ?_⟩⟩ <;>
    · rw [execute_eq_main]
      simp [executeMain, rewriteCodeToTrackVariables, parseFragment, rewriteProgram,
        rewriteBlock, rewriteStmt, exprTrackedAssigns, listToBlock, Block.append,
        vmRunFragment, execBlock, evalExpr, hv]

/-- Witness for C6's amended theorem at a concrete returned value. -/
theorem result_is_explicit_return_value_witness :
    (Value.num 5 ≠ Value.undef) ∧
    (execute emptyExecutorState "w6"
        (.prog (.cons (.ret (some (.lit (.num 5)))) .nil)) []).1.result
      = some (Value.num 5) :=
  ⟨by decide,
   ((result_is_explicit_return_value emptyExecutorState "w6" (.num 5) []
      (by decide)).1).2⟩

/-- Counterexample to C6 as stated: a successfully executed fragment that
ends in the expression `42` yields a result carrying no value — not the final
expression's value 42 — because the `(async () => { ... })()` wrapper
resolves to undefined without an explicit return. -/
theorem expression_value_not_returned :
    (execute emptyExecutorState "default"
        (.prog (.cons (.exprStmt (.lit (.num 42))) .nil)) []).1.success = true ∧
    (execute emptyExecutorState "default"
        (.prog (.cons (.exprStmt (.lit (.num 42))) .nil)) []).1.result = none ∧
    ¬ ((execute emptyExecutorState "default"
        (.prog (.cons (.exprStmt (.lit (.num 42))) .nil)) []).1.result
          = some (Value.num 42)) := by
  refine ⟨rfl, rfl, by decide⟩

/-- Claim C5 (console buffer drain-and-clear): every `execute` call —
success or failure alike, since both arms drain — returns the session and
page console buffers as the buffer contents at entry extended in FIFO order
by the lines emitted during the run, and leaves both buffers empty; hence
any immediately following run on the same session returns exactly its own
emissions, sharing nothing with the previous run's returned buffers. -/
theorem console_drain_and_clear (st : ExecutorState) (sid : String)
    (code : Source) (ev : List String) :
    getA (execute st sid code ev).2.consoleMessages sid = some [] ∧
    getA (execute st sid code ev).2.sessionConsoleMessages sid = some [] ∧
    (execute st sid code ev).1.sessionConsoleLogs =
      (getA (prepState st sid).sessionConsoleMessages sid).getD [] ++
        runEmits st sid code ∧
    (execute st sid code ev).1.browserConsoleLogs =
      (getA (prepState st sid).consoleMessages sid).getD [] ++
        (if (prepState st sid).consoleHandlersRegistered.contains sid then ev
         else []) ∧
    (∀ (code2 : Source) (ev2 : List String),
      (execute (execute st sid code ev).2 sid code2 ev2).1.sessionConsoleLogs =
        runEmits (execute st sid code ev).2 sid code2 ∧
      (execute (execute st sid code ev).2 sid code2 ev2).1.browserConsoleLogs =
        (if (prepState (execute st sid code ev).2 sid).consoleHandlersRegistered.contains sid
         then ev2 else [])) := by
  refine ⟨(execute_buffers_cleared st sid code ev).1,
    (execute_buffers_cleared st sid code ev).2, ?_, ?_, ?_⟩
  · rw [execute_eq_main]
    unfold runEmits runCtx
    exact (executeMain_logs (prepState st sid) sid code ev).1
  · rw [execute_eq_main]
    exact (executeMain_logs (prepState st sid) sid code ev).2
  · intro code2 ev2
    have hI0 : initIfAbsent (execute st sid code ev).2 sid = (execute st sid code ev).2 :=
      initIfAbsent_of_present _ _ (execute_ctx_isSome st sid code ev)
    have hbuf : (prepState (execute st sid code ev).2 sid).sessionConsoleMessages
        = (execute st sid code ev).2.sessionConsoleMessages := by
      rw [(prepState_buffers (execute st sid code ev).2 sid).2, hI0]
    have hbuf2 : (prepState (execute st sid code ev).2 sid).consoleMessages
        = (execute st sid code ev).2.consoleMessages := by
      rw [(prepState_buffers (execute st sid code ev).2 sid).1, hI0]
    constructor
    · rw [execute_eq_main]
      have h1 := (executeMain_logs (prepState (execute st sid code ev).2 sid) sid code2 ev2).1
      rw [h1, hbuf, (execute_buffers_cleared st sid code ev).2]
      unfold runEmits runCtx
      rfl
    · rw [execute_eq_main]
      have h1 := (executeMain_logs (prepState (execute st sid code ev).2 sid) sid code2 ev2).2
      rw [h1, hbuf2, (execute_buffers_cleared st sid code ev).1]
      rfl

/-- Claim C1 (amended — tracked-variable persistence for truthy values): for
every tracked name and every truthy value, a fragment that declares the name
with that value — or plainly assigns it — in a session makes a later fragment
of the same session read that same value from the durable namespace without
re-declaration.  (Truthiness is required because the lazy binding step of the
next run rebinds all of `browser`/`context`/`page` whenever any of them is
falsy; see the counterexample for the falsy case.) -/
theorem tracked_persistence_truthy (st : ExecutorState) (sid x : String)
    (v : Value) (ev1 ev2 : List String)
    (hx : trackedVariables.contains x = true) (hv : v.truthy = true) :
    ((execute (execute st sid (.prog (.cons (.decl (.id x) (.lit v)) .nil)) ev1).2
        sid (.prog (.cons (.ret (some (.var x))) .nil)) ev2).1.result = some v) ∧
    ((execute (execute st sid (.prog (.cons (.exprStmt (.assignId x (.lit v))) .nil)) ev1).2
        sid (.prog (.cons (.ret (some (.var x))) .nil)) ev2).1.result = some v) := by
  have hne := tracked_ne_globalThis x hx
  have hvne : v ≠ Value.undef := truthy_ne_undef v hv
  have h3 := prepState_three_truthy st sid
  constructor
  · have hctx1 : getA (execute st sid (.prog (.cons (.decl (.id x) (.lit v)) .nil)) ev1).2.contexts sid
        = some (setA (runCtx st sid) x v) := by
      rw [execute_eq_main, executeMain_state]
      dsimp only
      rw [getA_setA_same,
        show ((getA (prepState st sid).contexts sid).getD []) = runCtx st sid from rfl,
        run_write_decl (runCtx st sid) x v hx hne]
    exact exec_read _ sid x v ev2 _ hctx1 (getA_setA_same _ _ _) hne
      (probe_after_set _ _ _ _ hv h3.1)
      (probe_after_set _ _ _ _ hv h3.2.1)
      (probe_after_set _ _ _ _ hv h3.2.2)
      hvne
  · have hctx1 : getA (execute st sid (.prog (.cons (.exprStmt (.assignId x (.lit v))) .nil)) ev1).2.contexts sid
        = some (setA (setA (runCtx st sid) x v) x v) := by
      rw [execute_eq_main, executeMain_state]
      dsimp only
      rw [getA_setA_same,
        show ((getA (prepState st sid).contexts sid).getD []) = runCtx st sid from rfl,
        run_write_assign (runCtx st sid) x v hx hne]
    exact exec_read _ sid x v ev2 _ hctx1 (getA_setA_same _ _ _) hne
      (probe_after_set _ _ _ _ hv (probe_after_set _ _ _ _ hv h3.1))
      (probe_after_set _ _ _ _ hv (probe_after_set _ _ _ _ hv h3.2.1))
      (probe_after_set _ _ _ _ hv (probe_after_set _ _ _ _ hv h3.2.2))
      hvne

/-- Witness for C1's amended theorem: the tracked name `page` declared with
the truthy value 7 in one fragment is read back as 7 by the next fragment of
the same session. -/
theorem tracked_persistence_truthy_witness :
    trackedVariables.contains "page" = true ∧
    (Value.num 7).truthy = true ∧
    (execute (execute emptyExecutorState "w1"
        (.prog (.cons (.decl (.id "page") (.lit (.num 7))) .nil)) []).2 "w1"
        (.prog (.cons (.ret (some (.var "page"))) .nil)) []).1.result
      = some (Value.num 7) :=
  ⟨by decide, by decide,
   (tracked_persistence_truthy emptyExecutorState "w1" "page" (.num 7) [] []
     (by decide) (by decide)).1⟩

/-- Counterexample to C1 as stated: the fragment `page = null` assigns the
tracked name `page` in session `default`, but the next fragment of the same
session reads back a freshly bound page handle, not null — the lazy binding
step of the second run sees a falsy `page` global and rebinds all three
handles, overwriting the stored value. -/
theorem falsy_assignment_not_preserved :
    (execute (execute emptyExecutorState "default"
        (.prog (.cons (.exprStmt (.assignId "page" (.lit .nullV))) .nil)) []).2
        "default" (.prog (.cons (.ret (some (.var "page"))) .nil)) []).1.result
      = some (Value.handle "page" 3) ∧
    ¬ ((execute (execute emptyExecutorState "default"
        (.prog (.cons (.exprStmt (.assignId "page" (.lit .nullV))) .nil)) []).2
        "default" (.prog (.cons (.ret (some (.var "page"))) .nil)) []).1.result
      = some Value.nullV) := by
  refine ⟨rfl, by decide⟩

end Playwrightess
